import Mathlib

/-!
Verification development for the NIVAI statistics pipeline
(`python_api/src/stats_calculator.py`).

Numeric columns of the tabular data are modelled as exact rationals
for the aggregation layer and as real numbers for the kinematic
layer, whose speed and distance formulas involve square roots.  Each
Lean definition mirrors one function of the source file and keeps its
name.  Half-open time bins follow the semantics of
`np.arange(0, max_relative_time + interval_seconds, interval_seconds)`
composed with `pd.cut(..., right=False, include_lowest=True)` and a
`groupby(..., observed=False)`.
-/

namespace NIVAI

/-- Default threshold for high-intensity running, 19.8 km/h. -/
def DEFAULT_HIGH_SPEED_THRESHOLD_KMH : ℚ := 99 / 5

/-- Default threshold for sprinting, 25.2 km/h. -/
def DEFAULT_SPRINT_SPEED_THRESHOLD_KMH : ℚ := 126 / 5

/-- Minimum positive acceleration counted as an acceleration event. -/
def ACCELERATION_THRESHOLD_MS2 : ℚ := 1 / 2

/-- Maximum negative acceleration counted as a deceleration event. -/
def DECELERATION_THRESHOLD_MS2 : ℚ := -1 / 2

/-- One enriched tracking row, holding the columns that
`enrich_tracking_data` guarantees and the aggregation functions
consume. -/
structure ERow where
  timestamp_ms : ℚ
  speed_kmh : ℚ
  distance_covered_m : ℚ
  acceleration_ms2 : ℚ
  is_sprinting : Bool
  is_high_intensity_running : Bool
deriving DecidableEq

/-- `calculate_high_intensity_running_stats`, in the branch where the
intensity flag columns are already present on the data (the enriched
case); the threshold arguments are then unused, exactly as in the
source.  First component: high-intensity-running distance; second:
sprint distance. -/
def calculate_high_intensity_running_stats (rows : List ERow)
    (high_speed_threshold_kmh sprint_speed_threshold_kmh : ℚ) : ℚ × ℚ :=
  (((rows.filter fun r => r.is_high_intensity_running).map fun r => r.distance_covered_m).sum,
   ((rows.filter fun r => r.is_sprinting).map fun r => r.distance_covered_m).sum)

/-- `count_accelerations_decelerations` on enriched rows: frames with
acceleration strictly above, respectively strictly below, the two
thresholds. -/
def count_accelerations_decelerations (rows : List ERow)
    (acceleration_threshold_ms2 deceleration_threshold_ms2 : ℚ) : ℕ × ℕ :=
  ((rows.filter fun r => decide (acceleration_threshold_ms2 < r.acceleration_ms2)).length,
   (rows.filter fun r => decide (r.acceleration_ms2 < deceleration_threshold_ms2)).length)

/-- `Series.min` of a non-empty numeric column. -/
def qminList : List ℚ → ℚ
  | [] => 0
  | a :: t => t.foldl min a

/-- `Series.max` of a non-empty numeric column. -/
def qmaxList : List ℚ → ℚ
  | [] => 0
  | a :: t => t.foldl max a

/-- `Series.mean`: sum over length. -/
def qmean (l : List ℚ) : ℚ := l.sum / l.length

/-- The player summary record produced by
`calculate_player_summary_stats`. -/
structure PlayerSummary where
  total_distance_m : ℚ
  avg_speed_kmh : ℚ
  max_speed_kmh : ℚ
  duration_minutes : ℚ
  total_high_intensity_running_distance_m : ℚ
  total_sprint_distance_m : ℚ
  num_accelerations : ℕ
  num_decelerations : ℕ
deriving DecidableEq

/-- `calculate_player_summary_stats`: all-zero summary on empty input,
otherwise the reductions of the source. -/
def calculate_player_summary_stats (rows : List ERow)
    (high_speed_threshold_kmh sprint_speed_threshold_kmh
     acceleration_threshold_ms2 deceleration_threshold_ms2 : ℚ) : PlayerSummary :=
  if rows = [] then
    { total_distance_m := 0, avg_speed_kmh := 0, max_speed_kmh := 0, duration_minutes := 0,
      total_high_intensity_running_distance_m := 0, total_sprint_distance_m := 0,
      num_accelerations := 0, num_decelerations := 0 }
  else
    { total_distance_m := (rows.map fun r => r.distance_covered_m).sum,
      avg_speed_kmh := qmean (rows.map fun r => r.speed_kmh),
      max_speed_kmh := qmaxList (rows.map fun r => r.speed_kmh),
      duration_minutes :=
        ((qmaxList (rows.map fun r => r.timestamp_ms)
          - qminList (rows.map fun r => r.timestamp_ms)) / 1000) / 60,
      total_high_intensity_running_distance_m :=
        (calculate_high_intensity_running_stats rows high_speed_threshold_kmh
          sprint_speed_threshold_kmh).1,
      total_sprint_distance_m :=
        (calculate_high_intensity_running_stats rows high_speed_threshold_kmh
          sprint_speed_threshold_kmh).2,
      num_accelerations :=
        (count_accelerations_decelerations rows acceleration_threshold_ms2
          deceleration_threshold_ms2).1,
      num_decelerations :=
        (count_accelerations_decelerations rows acceleration_threshold_ms2
          deceleration_threshold_ms2).2 }

/-- One output row of `aggregate_stats_by_interval`. -/
structure IntervalRow where
  interval_start_time_s : ℚ
  interval_end_time_s : ℚ
  distance_m : ℚ
  high_intensity_running_distance_m : ℚ
  sprint_distance_m : ℚ
  num_accelerations : ℕ
  num_decelerations : ℕ
  avg_speed_kmh : ℚ
deriving DecidableEq

/-- `min_time_s = data.time_s.min()` with `time_s = timestamp_ms / 1000`. -/
def min_time_s (rows : List ERow) : ℚ := qminList (rows.map fun r => r.timestamp_ms / 1000)

/-- `relative_time_s = time_s - min_time_s` of one row. -/
def relative_time_s (rows : List ERow) (r : ERow) : ℚ :=
  r.timestamp_ms / 1000 - min_time_s rows

/-- `max_relative_time = data.relative_time_s.max()`. -/
def max_relative_time (rows : List ERow) : ℚ := qmaxList (rows.map (relative_time_s rows))

/-- Number of half-open bins created by
`np.arange(0, max_relative_time + interval_seconds, interval_seconds)`
followed by `pd.cut`: the `arange` has
`ceil(max_relative_time / interval_seconds) + 1` edges, hence one bin
fewer. -/
def num_bins (rows : List ERow) (interval_seconds : ℚ) : ℕ :=
  (Int.ceil (max_relative_time rows / interval_seconds)).toNat

/-- The bin a row falls into: `pd.cut(..., right=False)` assigns a row
with relative time `t` to the half-open bin with index
`floor(t / interval_seconds)`; rows at or beyond the last edge get no
bin and are then dropped by the `groupby`. -/
def bin_index (rows : List ERow) (interval_seconds : ℚ) (r : ERow) : ℤ :=
  Int.floor (relative_time_s rows r / interval_seconds)

/-- Member rows of bin `j`. -/
def bin_members (rows : List ERow) (interval_seconds : ℚ) (j : ℕ) : List ERow :=
  rows.filter fun r => decide (bin_index rows interval_seconds r = (j : ℤ))

/-- `aggregate_group` of `aggregate_stats_by_interval`: all-zero
aggregates for an empty bin, otherwise the per-bin reductions
(distance, HIR distance, sprint distance, acceleration count,
deceleration count, mean speed). -/
def aggregate_group (g : List ERow)
    (high_speed_threshold_kmh sprint_speed_threshold_kmh
     acceleration_threshold_ms2 deceleration_threshold_ms2 : ℚ) :
    ℚ × ℚ × ℚ × ℕ × ℕ × ℚ :=
  if g = [] then (0, 0, 0, 0, 0, 0)
  else
    ((g.map fun r => r.distance_covered_m).sum,
     (calculate_high_intensity_running_stats g high_speed_threshold_kmh
        sprint_speed_threshold_kmh).1,
     (calculate_high_intensity_running_stats g high_speed_threshold_kmh
        sprint_speed_threshold_kmh).2,
     (count_accelerations_decelerations g acceleration_threshold_ms2
        deceleration_threshold_ms2).1,
     (count_accelerations_decelerations g acceleration_threshold_ms2
        deceleration_threshold_ms2).2,
     qmean (g.map fun r => r.speed_kmh))

/-- One aggregated output row of `aggregate_stats_by_interval`:
the bin aggregates plus `interval.left + min_time_s` and
`interval.right + min_time_s`. -/
def interval_row (rows : List ERow) (interval_seconds : ℚ)
    (high_speed_threshold_kmh sprint_speed_threshold_kmh
     acceleration_threshold_ms2 deceleration_threshold_ms2 : ℚ) (j : ℕ) : IntervalRow :=
  let stats := aggregate_group (bin_members rows interval_seconds j)
    high_speed_threshold_kmh sprint_speed_threshold_kmh
    acceleration_threshold_ms2 deceleration_threshold_ms2
  { interval_start_time_s := (j : ℚ) * interval_seconds + min_time_s rows,
    interval_end_time_s := ((j : ℚ) + 1) * interval_seconds + min_time_s rows,
    distance_m := stats.1,
    high_intensity_running_distance_m := stats.2.1,
    sprint_distance_m := stats.2.2.1,
    num_accelerations := stats.2.2.2.1,
    num_decelerations := stats.2.2.2.2.1,
    avg_speed_kmh := stats.2.2.2.2.2 }

/-- `aggregate_stats_by_interval`.  Empty input returns the empty
bucket list.  When the bin edges collapse to a single point (all
frames share one timestamp, e.g. a single frame), `pd.cut` produces
no categories, the grouped-and-applied frame carries none of the
aggregate columns, and the final column selection raises a
`KeyError`; that is the `.error` branch. -/
def aggregate_stats_by_interval (rows : List ERow) (time_interval_minutes : ℕ)
    (high_speed_threshold_kmh sprint_speed_threshold_kmh
     acceleration_threshold_ms2 deceleration_threshold_ms2 : ℚ) :
    Except String (List IntervalRow) :=
  if rows = [] then .ok []
  else
    let interval_seconds : ℚ := (time_interval_minutes : ℚ) * 60
    let n := num_bins rows interval_seconds
    if n = 0 then .error "KeyError"
    else .ok ((List.range n).map (interval_row rows interval_seconds
      high_speed_threshold_kmh sprint_speed_threshold_kmh
      acceleration_threshold_ms2 deceleration_threshold_ms2))

/-- One output row of `generate_team_intervals`. -/
structure TeamIntervalRow where
  interval_start_time_s : ℚ
  interval_end_time_s : ℚ
  total_distance_m : ℚ
  total_high_intensity_running_distance_m : ℚ
  total_sprint_distance_m : ℚ
  total_num_accelerations : ℕ
  total_num_decelerations : ℕ
  avg_team_speed_kmh : ℚ
deriving DecidableEq

/-- `aggregate_team_group` of `generate_team_intervals`: intensity
distances read the frame-local flags directly, and the acceleration
thresholds are the module constants. -/
def aggregate_team_group (g : List ERow) : ℚ × ℚ × ℚ × ℕ × ℕ × ℚ :=
  if g = [] then (0, 0, 0, 0, 0, 0)
  else
    ((g.map fun r => r.distance_covered_m).sum,
     ((g.filter fun r => r.is_high_intensity_running).map fun r => r.distance_covered_m).sum,
     ((g.filter fun r => r.is_sprinting).map fun r => r.distance_covered_m).sum,
     (g.filter fun r => decide (ACCELERATION_THRESHOLD_MS2 < r.acceleration_ms2)).length,
     (g.filter fun r => decide (r.acceleration_ms2 < DECELERATION_THRESHOLD_MS2)).length,
     qmean (g.map fun r => r.speed_kmh))

/-- One aggregated output row of `generate_team_intervals`. -/
def team_interval_row (rows : List ERow) (interval_seconds : ℚ) (j : ℕ) : TeamIntervalRow :=
  let stats := aggregate_team_group (bin_members rows interval_seconds j)
  { interval_start_time_s := (j : ℚ) * interval_seconds + min_time_s rows,
    interval_end_time_s := ((j : ℚ) + 1) * interval_seconds + min_time_s rows,
    total_distance_m := stats.1,
    total_high_intensity_running_distance_m := stats.2.1,
    total_sprint_distance_m := stats.2.2.1,
    total_num_accelerations := stats.2.2.2.1,
    total_num_decelerations := stats.2.2.2.2.1,
    avg_team_speed_kmh := stats.2.2.2.2.2 }

/-- `generate_team_intervals`: identical bin construction to
`aggregate_stats_by_interval`, team-named output columns. -/
def generate_team_intervals (rows : List ERow) (time_interval_minutes : ℕ) :
    Except String (List TeamIntervalRow) :=
  if rows = [] then .ok []
  else
    let interval_seconds : ℚ := (time_interval_minutes : ℚ) * 60
    let n := num_bins rows interval_seconds
    if n = 0 then .error "KeyError"
    else .ok ((List.range n).map (team_interval_row rows interval_seconds))

/-- The renaming that separates the team-level interval schema from
the player-level one. -/
def rename_team_fields (b : IntervalRow) : TeamIntervalRow :=
  { interval_start_time_s := b.interval_start_time_s,
    interval_end_time_s := b.interval_end_time_s,
    total_distance_m := b.distance_m,
    total_high_intensity_running_distance_m := b.high_intensity_running_distance_m,
    total_sprint_distance_m := b.sprint_distance_m,
    total_num_accelerations := b.num_accelerations,
    total_num_decelerations := b.num_decelerations,
    avg_team_speed_kmh := b.avg_speed_kmh }

/-- The reducer families of `generate_team_summaries`. -/
inductive AggKind
  | sum
  | mean
  | max
deriving DecidableEq

/-- Substring occurrence on character lists (the `in` operator of
Python strings). -/
def charSub : List Char → List Char → Bool
  | pat, [] => pat.isEmpty
  | pat, c :: rest => pat.isPrefixOf (c :: rest) || charSub pat rest

/-- `pat in s` for Python strings. -/
def strContains (s pat : String) : Bool := charSub pat.toList s.toList

/-- The statistic columns of a player summary, in Series order. -/
def stats_cols : List String :=
  ["total_distance_m", "avg_speed_kmh", "max_speed_kmh", "duration_minutes",
   "total_high_intensity_running_distance_m", "total_sprint_distance_m",
   "num_accelerations", "num_decelerations"]

/-- Reducer selection of `generate_team_summaries`: substring dispatch
on the column name. -/
def agg_func_base (col : String) : AggKind :=
  if strContains col "avg_" || strContains col "duration_" then AggKind.mean
  else if strContains col "max_" then AggKind.max
  else AggKind.sum

/-- Reducer actually used, after the explicit correction that
re-assigns `duration_minutes` to `sum`. -/
def agg_func_for (col : String) : AggKind :=
  if col = "duration_minutes" then AggKind.sum else agg_func_base col

/-- Column access on a player summary record. -/
def get_stat (s : PlayerSummary) : String → ℚ
  | "total_distance_m" => s.total_distance_m
  | "avg_speed_kmh" => s.avg_speed_kmh
  | "max_speed_kmh" => s.max_speed_kmh
  | "duration_minutes" => s.duration_minutes
  | "total_high_intensity_running_distance_m" => s.total_high_intensity_running_distance_m
  | "total_sprint_distance_m" => s.total_sprint_distance_m
  | "num_accelerations" => (s.num_accelerations : ℚ)
  | "num_decelerations" => (s.num_decelerations : ℚ)
  | _ => 0

/-- Application of a reducer family to the column of one team. -/
def apply_agg : AggKind → List ℚ → ℚ
  | AggKind.sum, l => l.sum
  | AggKind.mean, l => qmean l
  | AggKind.max, l => qmaxList l

/-- `player_to_team_map.get(player_id, "UnknownTeam")`. -/
def team_of (player_to_team_map : List (String × String)) (pid : String) : String :=
  (player_to_team_map.lookup pid).getD "UnknownTeam"

/-- The players grouped under team `t`. -/
def team_members (players : List (String × PlayerSummary))
    (player_to_team_map : List (String × String)) (t : String) :
    List (String × PlayerSummary) :=
  players.filter fun p => decide (team_of player_to_team_map p.1 = t)

/-- One aggregated statistic of the team summary for team `t`. -/
def team_stat (players : List (String × PlayerSummary))
    (player_to_team_map : List (String × String)) (t : String) (col : String) : ℚ :=
  apply_agg (agg_func_for col)
    ((team_members players player_to_team_map t).map fun p => get_stat p.2 col)

/-- The distinct team keys present after mapping every player. -/
def team_ids (players : List (String × PlayerSummary))
    (player_to_team_map : List (String × String)) : List String :=
  (players.map fun p => team_of player_to_team_map p.1).dedup

/-- `generate_team_summaries`: one record per distinct team key, each
statistic combined with its selected reducer. -/
def generate_team_summaries (players : List (String × PlayerSummary))
    (player_to_team_map : List (String × String)) :
    List (String × (String → ℚ)) :=
  (team_ids players player_to_team_map).map fun t =>
    (t, fun col => team_stat players player_to_team_map t col)

/-- Error text of the `calculate_speed_kmh` schema check. -/
def speed_cols_error : String :=
  "DataFrame must contain smooth_x_speed and smooth_y_speed columns."

/-- Error text of the `calculate_distance_covered` schema check. -/
def distance_cols_error : String :=
  "DataFrame must contain x, y, player_id, and timestamp_ms columns."

/-- First error text of the `calculate_acceleration` schema check. -/
def accel_cols_error : String :=
  "DataFrame must contain speed_ms and timestamp_ms columns. Run calculate_speed_kmh first."

/-- Second error text of the `calculate_acceleration` schema check. -/
def accel_group_error : String :=
  "DataFrame must contain player_id for correct grouping."

/-- Column-level model of `calculate_speed_kmh`: its schema check and
the columns it adds. -/
def calculate_speed_kmh_cols (cols : List String) : Except String (List String) :=
  if "smooth_x_speed" ∈ cols ∧ "smooth_y_speed" ∈ cols then
    .ok (cols ++ ["speed_ms", "speed_kmh"])
  else .error speed_cols_error

/-- Column-level model of `calculate_distance_covered`: its schema
check and the column it adds (the two delta columns are added and
dropped again). -/
def calculate_distance_covered_cols (cols : List String) : Except String (List String) :=
  if "x" ∈ cols ∧ "y" ∈ cols ∧ "player_id" ∈ cols ∧ "timestamp_ms" ∈ cols then
    .ok (cols ++ ["distance_covered_m"])
  else .error distance_cols_error

/-- Column-level model of `calculate_acceleration`. -/
def calculate_acceleration_cols (cols : List String) : Except String (List String) :=
  if "speed_ms" ∈ cols ∧ "timestamp_ms" ∈ cols then
    if "player_id" ∈ cols then .ok (cols ++ ["time_s", "acceleration_ms2"])
    else .error accel_group_error
  else .error accel_cols_error

/-- Columns of the empty enriched frame returned for empty input. -/
def enriched_empty_cols : List String :=
  ["player_id", "team_id", "timestamp_ms", "x", "y",
   "smooth_x_speed", "smooth_y_speed", "speed_ms", "speed_kmh",
   "distance_covered_m", "time_s", "acceleration_ms2",
   "is_sprinting", "is_high_intensity_running"]

/-- Column-level model of `enrich_tracking_data`: the sequence of
schema checks performed on a non-empty frame, and the columns of the
result. -/
def enrich_tracking_data_cols (isEmpty : Bool) (cols : List String) :
    Except String (List String) :=
  if isEmpty then .ok enriched_empty_cols
  else
    match calculate_speed_kmh_cols cols with
    | .error e => .error e
    | .ok c1 =>
      match calculate_distance_covered_cols c1 with
      | .error e => .error e
      | .ok c2 =>
        match calculate_acceleration_cols c2 with
        | .error e => .error e
        | .ok c3 => .ok (c3 ++ ["is_sprinting", "is_high_intensity_running"])

/-- The input fields the enrichment requires. -/
def required_input_cols : List String :=
  ["player_id", "timestamp_ms", "x", "y", "smooth_x_speed", "smooth_y_speed"]

/-- One raw tracking frame, as read by the kinematic layer. -/
structure RawFrame where
  player_id : String
  timestamp_ms : ℚ
  x : ℝ
  y : ℝ
  smooth_x_speed : ℝ
  smooth_y_speed : ℝ

/-- Sort key order of `sort_values(by=[player_id, timestamp_ms])`. -/
def frame_le (a b : RawFrame) : Prop :=
  a.player_id < b.player_id ∨ (a.player_id = b.player_id ∧ a.timestamp_ms ≤ b.timestamp_ms)

instance frame_le_dec : DecidableRel frame_le := fun a b => by
  unfold frame_le; infer_instance

/-- The sorted frame table. -/
def sortFrames (l : List RawFrame) : List RawFrame := List.insertionSort frame_le l

/-- Unit conversion constant of the source module. -/
noncomputable def MS_TO_KMH : ℝ := 3600 / 1000

/-- Speed magnitude of one frame, from `calculate_speed_kmh`. -/
noncomputable def speed_ms_of (f : RawFrame) : ℝ :=
  Real.sqrt (f.smooth_x_speed ^ 2 + f.smooth_y_speed ^ 2)

/-- One enriched output frame of the kinematic layer. -/
structure EFrame where
  player_id : String
  timestamp_ms : ℚ
  x : ℝ
  y : ℝ
  smooth_x_speed : ℝ
  smooth_y_speed : ℝ
  speed_ms : ℝ
  speed_kmh : ℝ
  distance_covered_m : ℝ
  time_s : ℚ
  acceleration_ms2 : ℝ
  is_sprinting : Bool
  is_high_intensity_running : Bool

/-- One enriched row: speed from `calculate_speed_kmh`; distance from
`calculate_distance_covered`, 0 for a player's first frame via
`fillna(0)`; acceleration from `calculate_acceleration`, 0 for a
first frame or a zero time delta via `fillna(0)` and the replacement
of infinities by 0; intensity flags as in `enrich_tracking_data`.
`prev` is the preceding row of the same player in sorted order, when
one exists. -/
noncomputable def mkEnriched
    (high_speed_threshold_kmh sprint_speed_threshold_kmh : ℝ)
    (prev : Option RawFrame) (f : RawFrame) : EFrame :=
  let spd := speed_ms_of f
  let spdKmh := spd * MS_TO_KMH
  { player_id := f.player_id
    timestamp_ms := f.timestamp_ms
    x := f.x
    y := f.y
    smooth_x_speed := f.smooth_x_speed
    smooth_y_speed := f.smooth_y_speed
    speed_ms := spd
    speed_kmh := spdKmh
    distance_covered_m :=
      match prev with
      | none => 0
      | some q => Real.sqrt ((f.x - q.x) ^ 2 + (f.y - q.y) ^ 2)
    time_s := f.timestamp_ms / 1000
    acceleration_ms2 :=
      match prev with
      | none => 0
      | some q =>
        if f.timestamp_ms = q.timestamp_ms then 0
        else (spd - speed_ms_of q) / (((f.timestamp_ms - q.timestamp_ms : ℚ) : ℝ) / 1000)
    is_sprinting := decide (spdKmh > sprint_speed_threshold_kmh)
    is_high_intensity_running :=
      decide (spdKmh > high_speed_threshold_kmh)
        && decide (spdKmh ≤ sprint_speed_threshold_kmh) }

/-- The per-row pass over the sorted frames, carrying the preceding
row; a preceding row only counts as a predecessor when it belongs to
the same player, which is what `groupby(player_id).diff()` computes
on the table sorted by player then timestamp. -/
noncomputable def enrichRows (h s : ℝ) : Option RawFrame → List RawFrame → List EFrame
  | _, [] => []
  | prev, f :: rest =>
    let p := match prev with
      | some q => if q.player_id = f.player_id then some q else none
      | none => none
    mkEnriched h s p f :: enrichRows h s (some f) rest

/-- `enrich_tracking_data` over typed frames. -/
noncomputable def enrich_tracking_data (h s : ℝ) (frames : List RawFrame) : List EFrame :=
  enrichRows h s none (sortFrames frames)

/-- `tracking_df.copy()`: a fresh field-by-field copy of every row. -/
def copy_frames (l : List RawFrame) : List RawFrame :=
  l.map fun f =>
    { player_id := f.player_id, timestamp_ms := f.timestamp_ms, x := f.x, y := f.y,
      smooth_x_speed := f.smooth_x_speed, smooth_y_speed := f.smooth_y_speed }

/-- A call to `enrich_tracking_data` as the caller sees it: the caller
keeps its own frames, because the body copies them before any helper
mutates a table, and separately receives the enriched result. -/
noncomputable def enrich_tracking_data_call (h s : ℝ) (df : List RawFrame) :
    List RawFrame × List EFrame :=
  (df, enrich_tracking_data h s (copy_frames df))

/-- `calculate_high_intensity_running_stats` on enriched typed frames
(flag columns present). -/
noncomputable def calculate_high_intensity_running_stats_enriched
    (rows : List EFrame) : ℝ × ℝ :=
  (((rows.filter fun r => r.is_high_intensity_running).map fun r => r.distance_covered_m).sum,
   ((rows.filter fun r => r.is_sprinting).map fun r => r.distance_covered_m).sum)

/-- Total sprint distance of the enrichment-then-reduction pipeline. -/
noncomputable def total_sprint_distance_m (h s : ℝ) (frames : List RawFrame) : ℝ :=
  (calculate_high_intensity_running_stats_enriched (enrich_tracking_data h s frames)).2

/-- A concrete sample frame (player `p1`, timestamp 0, position at
the origin, velocity (3, 4) m/s), used for closed instances. -/
noncomputable def wit_frame : RawFrame :=
  { player_id := "p1", timestamp_ms := 0, x := 0, y := 0,
    smooth_x_speed := 3, smooth_y_speed := 4 }

end NIVAI

namespace NIVAI

theorem foldl_min_le_init (t : List ℚ) : ∀ a : ℚ, t.foldl min a ≤ a := by
  induction t with
  | nil => intro a; simp
  | cons b t ih =>
    intro a
    calc (b :: t).foldl min a = t.foldl min (min a b) := rfl
    _ ≤ min a b := ih (min a b)
    _ ≤ a := min_le_left a b

theorem foldl_min_le_mem (t : List ℚ) : ∀ a x, x ∈ t → t.foldl min a ≤ x := by
  induction t with
  | nil => intro a x hx; cases hx
  | cons b t ih =>
    intro a x hx
    rcases List.mem_cons.mp hx with hxb | hxt
    · subst hxb
      calc (x :: t).foldl min a = t.foldl min (min a x) := rfl
      _ ≤ min a x := foldl_min_le_init t (min a x)
      _ ≤ x := min_le_right a x
    · exact ih (min a b) x hxt

theorem qminList_le (l : List ℚ) (x : ℚ) (hx : x ∈ l) : qminList l ≤ x := by
  cases l with
  | nil => cases hx
  | cons a t =>
    rcases List.mem_cons.mp hx with hxa | hxt
    · subst hxa; exact foldl_min_le_init t x
    · exact foldl_min_le_mem t a x hxt

theorem init_le_foldl_max (t : List ℚ) : ∀ a : ℚ, a ≤ t.foldl max a := by
  induction t with
  | nil => intro a; simp
  | cons b t ih =>
    intro a
    calc a ≤ max a b := le_max_left a b
    _ ≤ t.foldl max (max a b) := ih (max a b)
    _ = (b :: t).foldl max a := rfl

theorem mem_le_foldl_max (t : List ℚ) : ∀ a x, x ∈ t → x ≤ t.foldl max a := by
  induction t with
  | nil => intro a x hx; cases hx
  | cons b t ih =>
    intro a x hx
    rcases List.mem_cons.mp hx with hxb | hxt
    · subst hxb
      calc x ≤ max a x := le_max_right a x
      _ ≤ t.foldl max (max a x) := init_le_foldl_max t (max a x)
      _ = (x :: t).foldl max a := rfl
    · exact ih (max a b) x hxt

theorem le_qmaxList (l : List ℚ) (x : ℚ) (hx : x ∈ l) : x ≤ qmaxList l := by
  cases l with
  | nil => cases hx
  | cons a t =>
    rcases List.mem_cons.mp hx with hxa | hxt
    · subst hxa; exact init_le_foldl_max t x
    · exact mem_le_foldl_max t a x hxt

/-- Every relative time is nonnegative. -/
theorem relative_time_nonneg (rows : List ERow) (r : ERow) (hr : r ∈ rows) :
    0 ≤ relative_time_s rows r := by
  have : min_time_s rows ≤ r.timestamp_ms / 1000 :=
    qminList_le _ _ (List.mem_map.mpr ⟨r, hr, rfl⟩)
  simp only [relative_time_s]
  linarith

/-- Every relative time is at most the maximal relative time. -/
theorem relative_time_le_max (rows : List ERow) (r : ERow) (hr : r ∈ rows) :
    relative_time_s rows r ≤ max_relative_time rows := by
  exact le_qmaxList _ _ (List.mem_map.mpr ⟨r, hr, rfl⟩)

/-- The maximal relative time of a non-empty table is nonnegative. -/
theorem max_relative_time_nonneg (rows : List ERow) (hne : rows ≠ []) :
    0 ≤ max_relative_time rows := by
  cases rows with
  | nil => exact absurd rfl hne
  | cons r t =>
    have h0 : 0 ≤ relative_time_s (r :: t) r :=
      relative_time_nonneg (r :: t) r (List.mem_cons_self r t)
    have h1 : relative_time_s (r :: t) r ≤ max_relative_time (r :: t) :=
      relative_time_le_max (r :: t) r (List.mem_cons_self r t)
    linarith

theorem list_range_map_sum (n : ℕ) (f : ℕ → ℚ) :
    ((List.range n).map f).sum = ∑ j in Finset.range n, f j := by
  induction n with
  | zero => simp
  | succ k ih =>
    rw [List.range_succ, List.map_append, List.sum_append, Finset.sum_range_succ, ih]
    simp

/-- Summing a column fiberwise over the bins recovers the whole-column
sum, provided every row lands in a bin below `n`. -/
theorem fiber_sum (idx : ERow → ℤ) (g : ERow → ℚ) (n : ℕ) :
    ∀ l : List ERow, (∀ a ∈ l, 0 ≤ idx a ∧ idx a < (n : ℤ)) →
      (∑ j in Finset.range n,
        ((l.filter fun x => decide (idx x = (j : ℤ))).map g).sum) = (l.map g).sum := by
  intro l
  induction l with
  | nil => simp
  | cons a t ih =>
    intro hall
    obtain ⟨h0, hn⟩ := hall a (List.mem_cons_self a t)
    have ht : ∀ x ∈ t, 0 ≤ idx x ∧ idx x < (n : ℤ) := fun x hx =>
      hall x (List.mem_cons_of_mem a hx)
    have hik : idx a = ((idx a).toNat : ℤ) := (Int.toNat_of_nonneg h0).symm
    have hkn : (idx a).toNat < n := by omega
    calc (∑ j in Finset.range n,
          (((a :: t).filter fun x => decide (idx x = (j : ℤ))).map g).sum)
        = ∑ j in Finset.range n,
            ((if idx a = (j : ℤ) then g a else 0)
              + ((t.filter fun x => decide (idx x = (j : ℤ))).map g).sum) := by
          refine Finset.sum_congr rfl fun j _ => ?_
          by_cases hj : idx a = (j : ℤ)
          · simp [List.filter_cons, hj]
          · simp [List.filter_cons, hj]
      _ = (∑ j in Finset.range n, if idx a = (j : ℤ) then g a else 0)
            + ∑ j in Finset.range n,
                ((t.filter fun x => decide (idx x = (j : ℤ))).map g).sum :=
          Finset.sum_add_distrib
      _ = g a + (t.map g).sum := by
          rw [ih ht]
          congr 1
          rw [Finset.sum_eq_single (idx a).toNat]
          · rw [if_pos hik]
          · intro b hb hbk
            rw [if_neg]
            intro hc
            exact hbk (by omega)
          · intro hk
            exact absurd (Finset.mem_range.mpr hkn) hk
      _ = ((a :: t).map g).sum := by simp

end NIVAI

open NIVAI

/-- C3 (amended): an empty input yields the empty bucket list, but a
single-frame input makes `aggregate_stats_by_interval` raise: the bin
edges collapse to the single point 0, no bucket exists, and the final
column selection fails with a KeyError. -/
theorem C3_empty_ok_single_frame_raises (m : ℕ) (h s ta td : ℚ) (r : ERow) :
    aggregate_stats_by_interval [] m h s ta td = .ok []
      ∧ aggregate_stats_by_interval [r] m h s ta td = .error "KeyError" := by
  constructor
  · rfl
  · simp [aggregate_stats_by_interval, num_bins, max_relative_time, relative_time_s,
      min_time_s, qmaxList, qminList]

/-- C3 counterexample: at a concrete one-frame input the aggregator
raises instead of returning an empty bucket list. -/
theorem C3_counterexample :
    aggregate_stats_by_interval [⟨0, 0, 0, 0, false, false⟩] 5
      DEFAULT_HIGH_SPEED_THRESHOLD_KMH DEFAULT_SPRINT_SPEED_THRESHOLD_KMH
      ACCELERATION_THRESHOLD_MS2 DECELERATION_THRESHOLD_MS2 = .error "KeyError" := by
  simp [aggregate_stats_by_interval, num_bins, max_relative_time, relative_time_s,
    min_time_s, qmaxList, qminList]

/-- C1 counterexample: for a player whose frames span 0 to 420 s
(7 minutes) with `interval_minutes = 5`, the reported bucket end
times are 300 and 600 seconds — the final bucket's end time is the
full configured bin edge, not 420. -/
theorem C1_counterexample :
    ((aggregate_stats_by_interval
        [⟨0, 10, 0, 0, false, false⟩, ⟨420000, 10, 3, 0, false, false⟩] 5
        DEFAULT_HIGH_SPEED_THRESHOLD_KMH DEFAULT_SPRINT_SPEED_THRESHOLD_KMH
        ACCELERATION_THRESHOLD_MS2 DECELERATION_THRESHOLD_MS2).map
      fun bs => bs.map fun b => b.interval_end_time_s) = .ok [300, 600]
    ∧ (600 : ℚ) ≠ 420 := by
  constructor
  · have hmin : min_time_s
        [⟨0, 10, 0, 0, false, false⟩, ⟨420000, 10, 3, 0, false, false⟩] = 0 := by
      norm_num [min_time_s, qminList]
    have hmax : max_relative_time
        [⟨0, 10, 0, 0, false, false⟩, ⟨420000, 10, 3, 0, false, false⟩] = 420 := by
      norm_num [max_relative_time, relative_time_s, qmaxList, hmin]
    have hbins : num_bins
        [⟨0, 10, 0, 0, false, false⟩, ⟨420000, 10, 3, 0, false, false⟩] 300 = 2 := by
      rw [num_bins, hmax]
      have hc : Int.ceil ((420 : ℚ) / 300) = 2 := by norm_num [Int.ceil_eq_iff]
      rw [hc]
      rfl
    simp [aggregate_stats_by_interval]
    norm_num [hbins, List.range_succ, interval_row, hmin, Except.map]
  · norm_num

/-- C1 (amended): with `interval_minutes = 5`, for any non-empty
enriched input whose frames span exactly 420 s (7 minutes) of
relative time, exactly two buckets are produced, and their reported
boundaries sit on the full configured bin edges: starts at the first
frame time plus 0 and 300 s, ends at plus 300 and plus 600 s.  The
final bucket's end time is the full bin edge (600 s after the first
frame), not the 420 s span of the data. -/
theorem C1_two_buckets_full_final_edge (rows : List ERow) (h s ta td : ℚ)
    (hne : rows ≠ []) (hspan : max_relative_time rows = 420) :
    ∃ b0 b1, aggregate_stats_by_interval rows 5 h s ta td = .ok [b0, b1]
      ∧ b0.interval_start_time_s = min_time_s rows
      ∧ b0.interval_end_time_s = min_time_s rows + 300
      ∧ b1.interval_start_time_s = min_time_s rows + 300
      ∧ b1.interval_end_time_s = min_time_s rows + 600 := by
  have hw : ((5 : ℕ) : ℚ) * 60 = 300 := by norm_num
  have hc : Int.ceil ((420 : ℚ) / 300) = 2 := by norm_num [Int.ceil_eq_iff]
  have hn : num_bins rows (((5 : ℕ) : ℚ) * 60) = 2 := by
    rw [num_bins, hw, hspan, hc]
    rfl
  refine ⟨interval_row rows (((5 : ℕ) : ℚ) * 60) h s ta td 0,
    interval_row rows (((5 : ℕ) : ℚ) * 60) h s ta td 1, ?_, ?_, ?_, ?_, ?_⟩
  · rw [aggregate_stats_by_interval, if_neg hne]
    simp only [hn]
    norm_num [List.range_succ]
  · simp [interval_row]
  · simp [interval_row, hw]
    ring
  · simp [interval_row, hw]
    ring
  · simp [interval_row, hw]
    ring

namespace NIVAI

/-- The distance of an interval row is the distance sum of its bin
members, whether or not the bin is empty. -/
theorem interval_row_distance (rows : List ERow) (w h s ta td : ℚ) (j : ℕ) :
    (interval_row rows w h s ta td j).distance_m
      = ((bin_members rows w j).map fun r => r.distance_covered_m).sum := by
  by_cases hg : bin_members rows w j = []
  · simp [interval_row, aggregate_group, hg]
  · simp [interval_row, aggregate_group, hg]

end NIVAI

open NIVAI

/-- C2 (amended): for a non-empty player table whose maximal relative
time does not land exactly on a bin edge (equivalently, the span is
not an exact multiple of the interval width), the interval aggregator
succeeds and the sum of `distance_m` over its buckets equals the
player summary's `total_distance_m`.  (When the span is an exact
positive multiple of the width, the frames at the final edge are cut
away by the half-open binning and the equality can fail; see the
counterexample.) -/
theorem C2_bucket_distance_sum_eq_total (rows : List ERow) (m : ℕ) (h s ta td : ℚ)
    (hne : rows ≠ [])
    (hnb : max_relative_time rows
      < ((Int.ceil (max_relative_time rows / ((m : ℚ) * 60)) : ℤ) : ℚ) * ((m : ℚ) * 60)) :
    ∃ bs, aggregate_stats_by_interval rows m h s ta td = .ok bs
      ∧ (bs.map fun b => b.distance_m).sum
          = (calculate_player_summary_stats rows h s ta td).total_distance_m := by
  have hM0 : 0 ≤ max_relative_time rows := max_relative_time_nonneg rows hne
  have hw0 : (0 : ℚ) ≤ (m : ℚ) * 60 := by positivity
  have hcw : 0 < ((Int.ceil (max_relative_time rows / ((m : ℚ) * 60)) : ℤ) : ℚ)
      * ((m : ℚ) * 60) := lt_of_le_of_lt hM0 hnb
  have hwpos : (0 : ℚ) < (m : ℚ) * 60 := by
    rcases lt_or_eq_of_le hw0 with hlt | heq
    · exact hlt
    · exfalso; rw [← heq] at hcw; simp at hcw
  have hcpos : 0 < Int.ceil (max_relative_time rows / ((m : ℚ) * 60)) := by
    by_contra hc
    push_neg at hc
    have hc' : ((Int.ceil (max_relative_time rows / ((m : ℚ) * 60)) : ℤ) : ℚ) ≤ 0 := by
      exact_mod_cast hc
    nlinarith
  have hnpos : num_bins rows ((m : ℚ) * 60) ≠ 0 := by
    rw [num_bins]
    omega
  have hcastn : ((num_bins rows ((m : ℚ) * 60) : ℕ) : ℤ)
      = Int.ceil (max_relative_time rows / ((m : ℚ) * 60)) := by
    rw [num_bins]
    omega
  have hbounds : ∀ r ∈ rows, 0 ≤ bin_index rows ((m : ℚ) * 60) r
      ∧ bin_index rows ((m : ℚ) * 60) r < ((num_bins rows ((m : ℚ) * 60) : ℕ) : ℤ) := by
    intro r hr
    constructor
    · exact Int.floor_nonneg.mpr
        (div_nonneg (relative_time_nonneg rows r hr) (le_of_lt hwpos))
    · rw [bin_index, Int.floor_lt, hcastn]
      rw [div_lt_iff₀ hwpos]
      calc relative_time_s rows r ≤ max_relative_time rows := relative_time_le_max rows r hr
      _ < _ := hnb
  refine ⟨(List.range (num_bins rows ((m : ℚ) * 60))).map
      (interval_row rows ((m : ℚ) * 60) h s ta td), ?_, ?_⟩
  · rw [aggregate_stats_by_interval, if_neg hne]
    simp only [if_neg hnpos]
  · rw [List.map_map]
    have hcomp : ((fun b : IntervalRow => b.distance_m)
          ∘ interval_row rows ((m : ℚ) * 60) h s ta td)
        = fun j => ((bin_members rows ((m : ℚ) * 60) j).map
            fun r => r.distance_covered_m).sum := by
      funext j
      exact interval_row_distance rows ((m : ℚ) * 60) h s ta td j
    rw [hcomp]
    rw [list_range_map_sum]
    simp only [bin_members, bin_index] at *
    rw [fiber_sum _ _ _ rows hbounds]
    rw [calculate_player_summary_stats, if_neg hne]

/-- Closed instance of the C2 theorem at a two-frame table spanning
420 s with 5-minute intervals. -/
theorem C2_bucket_distance_sum_eq_total_witness :
    (([⟨0, 10, 0, 0, false, false⟩, ⟨420000, 10, 3, 0, false, false⟩] : List ERow) ≠ [])
    ∧ max_relative_time [⟨0, 10, 0, 0, false, false⟩, ⟨420000, 10, 3, 0, false, false⟩]
        < ((Int.ceil (max_relative_time
            [⟨0, 10, 0, 0, false, false⟩, ⟨420000, 10, 3, 0, false, false⟩]
            / (((5 : ℕ) : ℚ) * 60)) : ℤ) : ℚ) * (((5 : ℕ) : ℚ) * 60)
    ∧ ∃ bs, aggregate_stats_by_interval
        [⟨0, 10, 0, 0, false, false⟩, ⟨420000, 10, 3, 0, false, false⟩] 5
        DEFAULT_HIGH_SPEED_THRESHOLD_KMH DEFAULT_SPRINT_SPEED_THRESHOLD_KMH
        ACCELERATION_THRESHOLD_MS2 DECELERATION_THRESHOLD_MS2 = .ok bs
      ∧ (bs.map fun b => b.distance_m).sum
          = (calculate_player_summary_stats
              [⟨0, 10, 0, 0, false, false⟩, ⟨420000, 10, 3, 0, false, false⟩]
              DEFAULT_HIGH_SPEED_THRESHOLD_KMH DEFAULT_SPRINT_SPEED_THRESHOLD_KMH
              ACCELERATION_THRESHOLD_MS2 DECELERATION_THRESHOLD_MS2).total_distance_m := by
  have hmax : max_relative_time
      [⟨0, 10, 0, 0, false, false⟩, ⟨420000, 10, 3, 0, false, false⟩] = 420 := by
    norm_num [max_relative_time, relative_time_s, min_time_s, qminList, qmaxList]
  have hc : Int.ceil ((7 : ℚ) / 5) = 2 := by norm_num [Int.ceil_eq_iff]
  refine ⟨by simp, ?_, ?_⟩
  · rw [hmax]
    norm_num [hc]
  · exact C2_bucket_distance_sum_eq_total _ 5
      DEFAULT_HIGH_SPEED_THRESHOLD_KMH DEFAULT_SPRINT_SPEED_THRESHOLD_KMH
      ACCELERATION_THRESHOLD_MS2 DECELERATION_THRESHOLD_MS2 (by simp)
      (by rw [hmax]; norm_num [hc])

/-- C2 counterexample: two frames at relative times 0 s and 600 s with
`interval_minutes = 5`.  The span is an exact multiple of the 300 s
width, so the second frame sits exactly on the last bin edge, is
assigned to no half-open bin, and its 5 m distance delta is dropped:
the buckets sum to 0 while `total_distance_m` is 5. -/
theorem C2_counterexample :
    (Except.map (fun bs => (bs.map fun b => b.distance_m).sum)
      (aggregate_stats_by_interval
        [⟨0, 10, 0, 0, false, false⟩, ⟨600000, 10, 5, 0, false, false⟩] 5
        DEFAULT_HIGH_SPEED_THRESHOLD_KMH DEFAULT_SPRINT_SPEED_THRESHOLD_KMH
        ACCELERATION_THRESHOLD_MS2 DECELERATION_THRESHOLD_MS2) = .ok 0)
    ∧ (calculate_player_summary_stats
        [⟨0, 10, 0, 0, false, false⟩, ⟨600000, 10, 5, 0, false, false⟩]
        DEFAULT_HIGH_SPEED_THRESHOLD_KMH DEFAULT_SPRINT_SPEED_THRESHOLD_KMH
        ACCELERATION_THRESHOLD_MS2 DECELERATION_THRESHOLD_MS2).total_distance_m = 5
    ∧ (0 : ℚ) ≠ 5 := by
  have hmin : min_time_s
      [⟨0, 10, 0, 0, false, false⟩, ⟨600000, 10, 5, 0, false, false⟩] = 0 := by
    norm_num [min_time_s, qminList]
  have hmax : max_relative_time
      [⟨0, 10, 0, 0, false, false⟩, ⟨600000, 10, 5, 0, false, false⟩] = 600 := by
    norm_num [max_relative_time, relative_time_s, qmaxList, hmin]
  have hbins : num_bins
      [⟨0, 10, 0, 0, false, false⟩, ⟨600000, 10, 5, 0, false, false⟩] 300 = 2 := by
    rw [num_bins, hmax]
    have hc : Int.ceil ((600 : ℚ) / 300) = 2 := by norm_num [Int.ceil_eq_iff]
    rw [hc]
    rfl
  have hi0 : bin_index
      [⟨0, 10, 0, 0, false, false⟩, ⟨600000, 10, 5, 0, false, false⟩] 300
      ⟨0, 10, 0, 0, false, false⟩ = 0 := by
    rw [bin_index]
    have hrel : relative_time_s
        [⟨0, 10, 0, 0, false, false⟩, ⟨600000, 10, 5, 0, false, false⟩]
        ⟨0, 10, 0, 0, false, false⟩ = 0 := by
      norm_num [relative_time_s, hmin]
    rw [hrel]
    norm_num
  have hi1 : bin_index
      [⟨0, 10, 0, 0, false, false⟩, ⟨600000, 10, 5, 0, false, false⟩] 300
      ⟨600000, 10, 5, 0, false, false⟩ = 2 := by
    rw [bin_index]
    have hrel : relative_time_s
        [⟨0, 10, 0, 0, false, false⟩, ⟨600000, 10, 5, 0, false, false⟩]
        ⟨600000, 10, 5, 0, false, false⟩ = 600 := by
      norm_num [relative_time_s, hmin]
    rw [hrel]
    have h2 : (600 : ℚ) / 300 = 2 := by norm_num
    rw [h2]
    norm_num [Int.floor_eq_iff]
  refine ⟨?_, ?_, by norm_num⟩
  · rw [aggregate_stats_by_interval, if_neg (by simp)]
    norm_num [hbins, List.range_succ, interval_row, aggregate_group, bin_members,
      hi0, hi1, calculate_high_intensity_running_stats,
      count_accelerations_decelerations, qmean, Except.map]
  · rw [calculate_player_summary_stats, if_neg (by simp)]
    norm_num

/-- Closed instance of the C1 theorem at a concrete two-frame table
spanning 420 s. -/
theorem C1_two_buckets_full_final_edge_witness :
    (([⟨0, 10, 0, 0, false, false⟩, ⟨420000, 10, 3, 0, false, false⟩] : List ERow) ≠ [])
    ∧ max_relative_time [⟨0, 10, 0, 0, false, false⟩, ⟨420000, 10, 3, 0, false, false⟩] = 420
    ∧ ∃ b0 b1, aggregate_stats_by_interval
        [⟨0, 10, 0, 0, false, false⟩, ⟨420000, 10, 3, 0, false, false⟩] 5
        DEFAULT_HIGH_SPEED_THRESHOLD_KMH DEFAULT_SPRINT_SPEED_THRESHOLD_KMH
        ACCELERATION_THRESHOLD_MS2 DECELERATION_THRESHOLD_MS2 = .ok [b0, b1]
      ∧ b0.interval_start_time_s
          = min_time_s [⟨0, 10, 0, 0, false, false⟩, ⟨420000, 10, 3, 0, false, false⟩]
      ∧ b0.interval_end_time_s
          = min_time_s [⟨0, 10, 0, 0, false, false⟩, ⟨420000, 10, 3, 0, false, false⟩] + 300
      ∧ b1.interval_start_time_s
          = min_time_s [⟨0, 10, 0, 0, false, false⟩, ⟨420000, 10, 3, 0, false, false⟩] + 300
      ∧ b1.interval_end_time_s
          = min_time_s [⟨0, 10, 0, 0, false, false⟩, ⟨420000, 10, 3, 0, false, false⟩] + 600 := by
  have hmax : max_relative_time
      [⟨0, 10, 0, 0, false, false⟩, ⟨420000, 10, 3, 0, false, false⟩] = 420 := by
    norm_num [max_relative_time, relative_time_s, min_time_s, qminList, qmaxList]
  exact ⟨by simp, hmax, C1_two_buckets_full_final_edge _
    DEFAULT_HIGH_SPEED_THRESHOLD_KMH DEFAULT_SPRINT_SPEED_THRESHOLD_KMH
    ACCELERATION_THRESHOLD_MS2 DECELERATION_THRESHOLD_MS2 (by simp) hmax⟩

namespace NIVAI

/-- Bucket by bucket, the team-level aggregation with the module
constants equals the player-level aggregation at the default
thresholds, up to the field renaming. -/
theorem team_interval_row_eq_renamed (rows : List ERow) (w : ℚ) (j : ℕ) :
    team_interval_row rows w j
      = rename_team_fields (interval_row rows w
          DEFAULT_HIGH_SPEED_THRESHOLD_KMH DEFAULT_SPRINT_SPEED_THRESHOLD_KMH
          ACCELERATION_THRESHOLD_MS2 DECELERATION_THRESHOLD_MS2 j) := by
  by_cases hg : bin_members rows w j = []
  · simp [team_interval_row, interval_row, rename_team_fields, aggregate_group,
      aggregate_team_group, hg]
  · simp [team_interval_row, interval_row, rename_team_fields, aggregate_group,
      aggregate_team_group, hg, calculate_high_intensity_running_stats,
      count_accelerations_decelerations, qmean]

end NIVAI

/-- C9: the team-level interval aggregator is the player-level
interval aggregator at the default thresholds, with the output fields
renamed (`total_` prefix, `avg_team_speed_kmh`): same bin
construction, same per-bucket numbers, and the same error behaviour. -/
theorem C9_team_intervals_equal_player_intervals (rows : List ERow) (m : ℕ) :
    generate_team_intervals rows m
      = Except.map (List.map rename_team_fields)
          (aggregate_stats_by_interval rows m
            DEFAULT_HIGH_SPEED_THRESHOLD_KMH DEFAULT_SPRINT_SPEED_THRESHOLD_KMH
            ACCELERATION_THRESHOLD_MS2 DECELERATION_THRESHOLD_MS2) := by
  rw [generate_team_intervals, aggregate_stats_by_interval]
  by_cases hne : rows = []
  · simp [hne, Except.map]
  · rw [if_neg hne, if_neg hne]
    by_cases hn : num_bins rows ((m : ℚ) * 60) = 0
    · simp [hn, Except.map]
    · simp only [if_neg hn, Except.map, List.map_map]
      refine congrArg Except.ok ?_
      exact List.map_congr_left fun j _ => team_interval_row_eq_renamed rows ((m : ℚ) * 60) j

/-- C7: the team roll-up selects `mean` for `avg_speed_kmh`, `max`
for `max_speed_kmh`, `sum` for `duration_minutes` (overriding the
duration-as-mean substring rule) and `sum` for every total and count
field; consequently the team value of `total_distance_m` is the sum
of `total_distance_m` over exactly the players mapped to that team. -/
theorem C7_team_rollup_reducers (players : List (String × PlayerSummary))
    (player_to_team_map : List (String × String)) (t : String) :
    agg_func_for "avg_speed_kmh" = AggKind.mean
    ∧ agg_func_for "max_speed_kmh" = AggKind.max
    ∧ agg_func_for "duration_minutes" = AggKind.sum
    ∧ agg_func_for "total_distance_m" = AggKind.sum
    ∧ agg_func_for "total_high_intensity_running_distance_m" = AggKind.sum
    ∧ agg_func_for "total_sprint_distance_m" = AggKind.sum
    ∧ agg_func_for "num_accelerations" = AggKind.sum
    ∧ agg_func_for "num_decelerations" = AggKind.sum
    ∧ team_stat players player_to_team_map t "total_distance_m"
        = ((team_members players player_to_team_map t).map
            fun p => p.2.total_distance_m).sum := by
  refine ⟨by decide, by decide, by decide, by decide, by decide, by decide, by decide,
    by decide, ?_⟩
  rw [team_stat, show agg_func_for "total_distance_m" = AggKind.sum from by decide]
  rw [apply_agg]
  congr 1

/-- C4: on a non-empty input missing exactly one of the six required
fields, enrichment stops at the corresponding schema check with an
error whose message names the missing field, and produces no enriched
output. -/
theorem C4_missing_field_schema_error (cols : List String) (f : String)
    (hf : f ∈ required_input_cols) (hmiss : f ∉ cols)
    (hrest : ∀ g ∈ required_input_cols, g ≠ f → g ∈ cols) :
    ∃ msg, enrich_tracking_data_cols false cols = .error msg
      ∧ strContains msg f = true := by
  have hq : ∀ g, g ∈ required_input_cols → g ≠ f → g ∈ cols := hrest
  fin_cases hf
  · -- player_id missing
    have hx : "smooth_x_speed" ∈ cols := hq _ (by simp [required_input_cols]) (by decide)
    have hy : "smooth_y_speed" ∈ cols := hq _ (by simp [required_input_cols]) (by decide)
    refine ⟨distance_cols_error, ?_, by decide⟩
    simp [enrich_tracking_data_cols, calculate_speed_kmh_cols,
      calculate_distance_covered_cols, hx, hy, hmiss]
  · -- timestamp_ms missing
    have hx : "smooth_x_speed" ∈ cols := hq _ (by simp [required_input_cols]) (by decide)
    have hy : "smooth_y_speed" ∈ cols := hq _ (by simp [required_input_cols]) (by decide)
    refine ⟨distance_cols_error, ?_, by decide⟩
    simp [enrich_tracking_data_cols, calculate_speed_kmh_cols,
      calculate_distance_covered_cols, hx, hy, hmiss]
  · -- x missing
    have hx : "smooth_x_speed" ∈ cols := hq _ (by simp [required_input_cols]) (by decide)
    have hy : "smooth_y_speed" ∈ cols := hq _ (by simp [required_input_cols]) (by decide)
    refine ⟨distance_cols_error, ?_, by decide⟩
    simp [enrich_tracking_data_cols, calculate_speed_kmh_cols,
      calculate_distance_covered_cols, hx, hy, hmiss]
  · -- y missing
    have hx : "smooth_x_speed" ∈ cols := hq _ (by simp [required_input_cols]) (by decide)
    have hy : "smooth_y_speed" ∈ cols := hq _ (by simp [required_input_cols]) (by decide)
    refine ⟨distance_cols_error, ?_, by decide⟩
    simp [enrich_tracking_data_cols, calculate_speed_kmh_cols,
      calculate_distance_covered_cols, hx, hy, hmiss]
  · -- smooth_x_speed missing
    refine ⟨speed_cols_error, ?_, by decide⟩
    simp [enrich_tracking_data_cols, calculate_speed_kmh_cols, hmiss]
  · -- smooth_y_speed missing
    refine ⟨speed_cols_error, ?_, by decide⟩
    simp [enrich_tracking_data_cols, calculate_speed_kmh_cols, hmiss]

/-- Closed instance of the C4 theorem: a table missing only `x`. -/
theorem C4_missing_field_schema_error_witness :
    ("x" ∈ required_input_cols
      ∧ "x" ∉ (["player_id", "timestamp_ms", "y", "smooth_x_speed",
          "smooth_y_speed"] : List String)
      ∧ ∀ g ∈ required_input_cols, g ≠ "x"
          → g ∈ (["player_id", "timestamp_ms", "y", "smooth_x_speed",
              "smooth_y_speed"] : List String))
    ∧ ∃ msg, enrich_tracking_data_cols false
        ["player_id", "timestamp_ms", "y", "smooth_x_speed", "smooth_y_speed"]
        = .error msg ∧ strContains msg "x" = true :=
  ⟨⟨by decide, by decide, by decide⟩,
    C4_missing_field_schema_error
      ["player_id", "timestamp_ms", "y", "smooth_x_speed", "smooth_y_speed"] "x"
      (by decide) (by decide) (by decide)⟩

namespace NIVAI

theorem copy_frames_id (l : List RawFrame) : copy_frames l = l := by
  simp [copy_frames]

theorem enrichRows_length (h s : ℝ) (prev : Option RawFrame) (l : List RawFrame) :
    (enrichRows h s prev l).length = l.length := by
  induction l generalizing prev with
  | nil => simp [enrichRows]
  | cons f t ih => simp [enrichRows, ih]

/-- Every row of the enriched output is `mkEnriched` of some previous
frame option and some frame. -/
theorem mem_enrichRows (h s : ℝ) (r : EFrame) :
    ∀ (l : List RawFrame) (prev : Option RawFrame),
      r ∈ enrichRows h s prev l → ∃ p f, r = mkEnriched h s p f := by
  intro l
  induction l with
  | nil => intro prev hr; simp [enrichRows] at hr
  | cons f t ih =>
    intro prev hr
    simp only [enrichRows] at hr
    rcases List.mem_cons.mp hr with hhead | htail
    · exact ⟨_, f, hhead⟩
    · exact ih (some f) htail

theorem mkEnriched_is_sprinting (h s : ℝ) (p : Option RawFrame) (f : RawFrame) :
    (mkEnriched h s p f).is_sprinting = decide (speed_ms_of f * MS_TO_KMH > s) := by
  simp [mkEnriched]

theorem mkEnriched_is_hir (h s : ℝ) (p : Option RawFrame) (f : RawFrame) :
    (mkEnriched h s p f).is_high_intensity_running
      = (decide (speed_ms_of f * MS_TO_KMH > h)
          && decide (speed_ms_of f * MS_TO_KMH ≤ s)) := by
  simp [mkEnriched]

theorem mkEnriched_speed_kmh (h s : ℝ) (p : Option RawFrame) (f : RawFrame) :
    (mkEnriched h s p f).speed_kmh = speed_ms_of f * MS_TO_KMH := by
  simp [mkEnriched]

theorem mkEnriched_player_id (h s : ℝ) (p : Option RawFrame) (f : RawFrame) :
    (mkEnriched h s p f).player_id = f.player_id := by
  simp [mkEnriched]

theorem mkEnriched_time_s (h s : ℝ) (p : Option RawFrame) (f : RawFrame) :
    (mkEnriched h s p f).time_s = f.timestamp_ms / 1000 := by
  simp [mkEnriched]

theorem mkEnriched_dist_nonneg (h s : ℝ) (p : Option RawFrame) (f : RawFrame) :
    0 ≤ (mkEnriched h s p f).distance_covered_m := by
  cases p with
  | none => simp [mkEnriched]
  | some q =>
    simp only [mkEnriched]
    exact Real.sqrt_nonneg _

theorem mkEnriched_dist_threshold_free (h s s' : ℝ) (p : Option RawFrame) (f : RawFrame) :
    (mkEnriched h s p f).distance_covered_m = (mkEnriched h s' p f).distance_covered_m := by
  cases p <;> simp [mkEnriched]

/-- Element lookup in the enriched output: the row at index `i` is
`mkEnriched` of the frame at `i`, with the predecessor guard taken
from the frame at `i - 1` (or the carried `prev` at the head). -/
theorem enrichRows_getElem (h s : ℝ) :
    ∀ (l : List RawFrame) (prev : Option RawFrame) (i : ℕ),
      (enrichRows h s prev l)[i]? =
        match l[i]?, (if i = 0 then prev else l[i-1]?) with
        | none, _ => none
        | some f, none => some (mkEnriched h s none f)
        | some f, some q =>
            some (mkEnriched h s (if q.player_id = f.player_id then some q else none) f) := by
  intro l
  induction l with
  | nil =>
    intro prev i
    simp [enrichRows]
  | cons f t ih =>
    intro prev i
    match i with
    | 0 =>
      cases prev with
      | none => simp [enrichRows]
      | some q => simp [enrichRows]
    | 1 =>
      simp only [enrichRows]
      have := ih (some f) 0
      simp only [List.getElem?_cons_succ]
      rw [this]
      simp
    | (j+2) =>
      simp only [enrichRows]
      have := ih (some f) (j+1)
      simp only [List.getElem?_cons_succ]
      rw [this]
      simp

end NIVAI

/-- C10: the enrichment call leaves the caller's frames unchanged —
the body copies the table before any helper adds columns or sorts, so
the original rows (content and count) survive the call, and the
derived columns exist only on the freshly produced output. -/
theorem C10_enrich_leaves_input_unchanged (h s : ℝ) (df : List RawFrame) :
    (enrich_tracking_data_call h s df).1 = df
      ∧ (enrich_tracking_data_call h s df).2 = enrich_tracking_data h s df := by
  constructor
  · rfl
  · rw [enrich_tracking_data_call, copy_frames_id]

/-- C5: for every frame produced by enrichment, under any threshold
pair, `is_sprinting` holds exactly on speeds strictly above the
sprint threshold, `is_high_intensity_running` exactly on speeds
strictly above the running threshold and at most the sprint
threshold, and the two flags are never simultaneously true. -/
theorem C5_intensity_flags_exclusive (h s : ℝ) (frames : List RawFrame) (r : EFrame)
    (hr : r ∈ enrich_tracking_data h s frames) :
    ¬(r.is_sprinting = true ∧ r.is_high_intensity_running = true)
    ∧ (r.is_sprinting = true ↔ r.speed_kmh > s)
    ∧ (r.is_high_intensity_running = true ↔ r.speed_kmh > h ∧ r.speed_kmh ≤ s) := by
  rw [enrich_tracking_data] at hr
  obtain ⟨p, f, rfl⟩ := mem_enrichRows h s r (sortFrames frames) none hr
  refine ⟨?_, ?_, ?_⟩
  · rw [mkEnriched_is_sprinting, mkEnriched_is_hir]
    simp only [decide_eq_true_eq, Bool.and_eq_true]
    rintro ⟨h1, _, h3⟩
    exact absurd h1 (not_lt.mpr h3)
  · rw [mkEnriched_is_sprinting, mkEnriched_speed_kmh]
    simp
  · rw [mkEnriched_is_hir, mkEnriched_speed_kmh]
    simp

/-- C6: a frame with no predecessor of the same player in the sorted
enriched output has `distance_covered_m = 0` and
`acceleration_ms2 = 0` (the `fillna(0)` of the group-wise diff), and
a frame whose time delta to its same-player predecessor is zero has
`acceleration_ms2 = 0` (the division result is non-finite and is
replaced by 0) — so acceleration is never left non-finite. -/
theorem C6_first_frame_zero_distance_acceleration (h s : ℝ) (frames : List RawFrame)
    (i : ℕ) (r : EFrame) (hr : (enrich_tracking_data h s frames)[i]? = some r) :
    ((i = 0 ∨ ∀ p, (enrich_tracking_data h s frames)[i-1]? = some p
        → p.player_id ≠ r.player_id)
      → r.distance_covered_m = 0 ∧ r.acceleration_ms2 = 0)
    ∧ (∀ p, (enrich_tracking_data h s frames)[i-1]? = some p → i ≠ 0
        → p.player_id = r.player_id → p.time_s = r.time_s
        → r.acceleration_ms2 = 0) := by
  simp only [enrich_tracking_data] at hr ⊢
  rw [enrichRows_getElem] at hr
  match i with
  | 0 =>
    match hL0 : (sortFrames frames)[0]? with
    | none => rw [hL0] at hr; simp at hr
    | some f =>
      rw [hL0] at hr
      simp only [if_pos rfl] at hr
      injection hr with hr
      subst hr
      constructor
      · intro _
        constructor
        · simp [mkEnriched]
        · simp [mkEnriched]
      · intro p _ h0
        exact absurd rfl h0
  | (j+1) =>
    rw [if_neg (Nat.succ_ne_zero j)] at hr
    simp only [Nat.add_sub_cancel] at hr ⊢
    match hLj : (sortFrames frames)[j]? with
    | none =>
      have hnone : (sortFrames frames)[j+1]? = none := by
        rw [List.getElem?_eq_none_iff] at hLj ⊢
        omega
      rw [hnone] at hr
      simp at hr
    | some q =>
      match hLj1 : (sortFrames frames)[j+1]? with
      | none => rw [hLj1] at hr; simp at hr
      | some f =>
        rw [hLj1, hLj] at hr
        simp only at hr
        injection hr with hr
        have hEj := enrichRows_getElem h s (sortFrames frames) none j
        rw [hLj] at hEj
        have hEx : ∃ p', (enrichRows h s none (sortFrames frames))[j]?
            = some (mkEnriched h s p' q) := by
          rcases hPj : (if j = 0 then (none : Option RawFrame)
              else (sortFrames frames)[j-1]?) with _ | q2
          · rw [hPj] at hEj
            exact ⟨none, hEj.trans rfl⟩
          · rw [hPj] at hEj
            exact ⟨_, hEj.trans rfl⟩
        obtain ⟨p', hEj'⟩ := hEx
        constructor
        · intro hfirst
          rcases hfirst with h0 | hne
          · exact absurd h0 (Nat.succ_ne_zero j)
          · have hqr := hne _ hEj'
            rw [mkEnriched_player_id] at hqr
            have hrf : r.player_id = f.player_id := by
              rw [← hr, mkEnriched_player_id]
            rw [hrf] at hqr
            rw [← hr, if_neg hqr]
            constructor
            · simp [mkEnriched]
            · simp [mkEnriched]
        · intro p hp _ hpid htime
          rw [hEj'] at hp
          injection hp with hp
          subst hp
          rw [mkEnriched_player_id] at hpid
          rw [mkEnriched_time_s] at htime
          have hrf : r.player_id = f.player_id := by
            rw [← hr, mkEnriched_player_id]
          have hrt : r.time_s = f.timestamp_ms / 1000 := by
            rw [← hr, mkEnriched_time_s]
          rw [hrf] at hpid
          rw [hrt] at htime
          have hqt : f.timestamp_ms = q.timestamp_ms := by
            field_simp at htime
            exact htime.symm
          rw [← hr, if_pos hpid]
          simp [mkEnriched, hqt]

namespace NIVAI

/-- Raising the sprint threshold shrinks the sprint-flagged set, and
distances are nonnegative, so the sprint distance of the enriched
rows is antitone in the sprint threshold. -/
theorem sprint_sum_mono (hth s1 s2 : ℝ) (h12 : s1 ≤ s2) :
    ∀ (l : List RawFrame) (prev : Option RawFrame),
      (calculate_high_intensity_running_stats_enriched (enrichRows hth s2 prev l)).2
        ≤ (calculate_high_intensity_running_stats_enriched (enrichRows hth s1 prev l)).2 := by
  intro l
  induction l with
  | nil =>
    intro prev
    simp [enrichRows, calculate_high_intensity_running_stats_enriched]
  | cons f t ih =>
    intro prev
    have iht := ih (some f)
    simp only [calculate_high_intensity_running_stats_enriched] at iht ⊢
    simp only [enrichRows, List.filter_cons, mkEnriched_is_sprinting, decide_eq_true_eq]
    by_cases h2 : speed_ms_of f * MS_TO_KMH > s2
    · have h1 : speed_ms_of f * MS_TO_KMH > s1 := lt_of_le_of_lt h12 h2
      rw [if_pos h2, if_pos h1]
      simp only [List.map_cons, List.sum_cons]
      exact add_le_add (le_of_eq (mkEnriched_dist_threshold_free hth s2 s1 _ f)) iht
    · rw [if_neg h2]
      by_cases h1 : speed_ms_of f * MS_TO_KMH > s1
      · rw [if_pos h1]
        simp only [List.map_cons, List.sum_cons]
        have hd0 : (0 : ℝ) ≤ (mkEnriched hth s1 (match prev with
            | some q => if q.player_id = f.player_id then some q else none
            | none => none) f).distance_covered_m := mkEnriched_dist_nonneg hth s1 _ f
        linarith
      · rw [if_neg h1]
        exact iht

end NIVAI

/-- C8: for fixed frames and a fixed running threshold, raising the
sprint threshold never increases the total sprint distance computed
through enrichment followed by the intensity reduction. -/
theorem C8_sprint_distance_antitone_in_threshold (frames : List RawFrame)
    (hth s1 s2 : ℝ) (h12 : s1 ≤ s2) :
    total_sprint_distance_m hth s2 frames ≤ total_sprint_distance_m hth s1 frames := by
  rw [total_sprint_distance_m, total_sprint_distance_m, enrich_tracking_data,
    enrich_tracking_data]
  exact sprint_sum_mono hth s1 s2 h12 (sortFrames frames) none

/-- Closed instance of the C5 theorem at a single concrete frame. -/
theorem C5_intensity_flags_exclusive_witness :
    (mkEnriched (99/5) (126/5) none wit_frame)
        ∈ enrich_tracking_data (99/5) (126/5) [wit_frame]
    ∧ (¬((mkEnriched (99/5) (126/5) none wit_frame).is_sprinting = true
          ∧ (mkEnriched (99/5) (126/5) none wit_frame).is_high_intensity_running = true)
       ∧ ((mkEnriched (99/5) (126/5) none wit_frame).is_sprinting = true
          ↔ (mkEnriched (99/5) (126/5) none wit_frame).speed_kmh > 126/5)
       ∧ ((mkEnriched (99/5) (126/5) none wit_frame).is_high_intensity_running = true
          ↔ (mkEnriched (99/5) (126/5) none wit_frame).speed_kmh > 99/5
            ∧ (mkEnriched (99/5) (126/5) none wit_frame).speed_kmh ≤ 126/5)) := by
  have hmem : (mkEnriched (99/5) (126/5) none wit_frame)
      ∈ enrich_tracking_data (99/5) (126/5) [wit_frame] := by
    rw [enrich_tracking_data]
    simp [sortFrames, List.insertionSort, List.orderedInsert, enrichRows]
  exact ⟨hmem, C5_intensity_flags_exclusive (99/5) (126/5) [wit_frame] _ hmem⟩

/-- Closed instance of the C6 theorem at index 0 of a one-frame table. -/
theorem C6_first_frame_zero_distance_acceleration_witness :
    (enrich_tracking_data (99/5) (126/5) [wit_frame])[0]?
        = some (mkEnriched (99/5) (126/5) none wit_frame)
    ∧ ((((0 : ℕ) = 0 ∨ ∀ p, (enrich_tracking_data (99/5) (126/5) [wit_frame])[0-1]?
            = some p
            → p.player_id ≠ (mkEnriched (99/5) (126/5) none wit_frame).player_id)
        → (mkEnriched (99/5) (126/5) none wit_frame).distance_covered_m = 0
          ∧ (mkEnriched (99/5) (126/5) none wit_frame).acceleration_ms2 = 0)
      ∧ (∀ p, (enrich_tracking_data (99/5) (126/5) [wit_frame])[0-1]? = some p
          → (0 : ℕ) ≠ 0
          → p.player_id = (mkEnriched (99/5) (126/5) none wit_frame).player_id
          → p.time_s = (mkEnriched (99/5) (126/5) none wit_frame).time_s
          → (mkEnriched (99/5) (126/5) none wit_frame).acceleration_ms2 = 0)) := by
  have h0 : (enrich_tracking_data (99/5) (126/5) [wit_frame])[0]?
      = some (mkEnriched (99/5) (126/5) none wit_frame) := by
    rw [enrich_tracking_data]
    simp [sortFrames, List.insertionSort, List.orderedInsert, enrichRows]
  exact ⟨h0, C6_first_frame_zero_distance_acceleration (99/5) (126/5) [wit_frame] 0 _ h0⟩

/-- Closed instance of the C8 theorem at thresholds 20 and 26 km/h. -/
theorem C8_sprint_distance_antitone_in_threshold_witness :
    (20 : ℝ) ≤ 26
    ∧ total_sprint_distance_m (99/5) 26 [wit_frame]
        ≤ total_sprint_distance_m (99/5) 20 [wit_frame] :=
  ⟨by norm_num,
    C8_sprint_distance_antitone_in_threshold [wit_frame] (99/5) 20 26 (by norm_num)⟩
